import Mathlib

/-!
Verification development for `tracking_and_processing_concurrent.py`:
a shallow embedding of the concurrency, deduplication, identity-assignment
and result-aggregation logic of the video-processing pipeline, together with
theorems settling the specification's claims.

Modelling conventions:
* Python floats (confidences) are modelled as rationals `ℚ`; the literals
  `0.4` and `0.3` are written `mkRat 2 5` and `mkRat 3 10` so that they
  evaluate inside the kernel.
* The external detect+track capability is modelled as data carried by each
  frame: either the list of tracked boxes it returns, or a fault (an uncaught
  exception raised by the call).
* The external classify capability's answer for a crop is carried on the box
  (`tshirt`, `plotSome`), since it depends only on the crop.
* Wall-clock data (timestamps, timing fields) and the file names derived from
  them are external and are not modelled; artifact writes are counted instead
  (`imagesWritten`, `jsonWritten`).
* The lock in `ThreadSafeCounter.increment` makes the read-increment-write
  atomic, so every concurrent run is equivalent to a serialization of the
  increment calls; concurrency is modelled by quantifying over schedules.
-/

namespace Tracking

/-- `ThreadSafeCounter._value`: the state of the global counter. -/
def CounterState := Nat

/-- `ThreadSafeCounter.increment`: under the lock, add one and return the new
value.  Result is `(new state, returned value)`. -/
def increment (v : Nat) : Nat × Nat := (v + 1, v + 1)

/-- One serialized schedule of concurrent `increment` calls: each list entry is
the id of the worker making that call; the run returns, in order, each worker
id paired with the value its call returned. -/
def runSchedule (v : Nat) : List Nat → List (Nat × Nat)
  | [] => []
  | w :: ws =>
    let r := increment v
    (w, r.2) :: runSchedule r.1 ws

/-- Result of the external t-shirt classifier for one detected garment box. -/
structure TshirtBox where
  conf : ℚ
  cls : Nat
deriving DecidableEq

/-- One tracked detection returned by `person_model.track` for a frame:
confidence, class id, track id, `xyxy` corner coordinates (as produced by
`map(int, box.xyxy[0])`), plus the external classifier's answer for the crop
of this box (`tshirt_model(person_roi)`): its boxes and whether `.plot()`
returns a renderable annotated image. -/
structure Box where
  conf : ℚ
  cls : Nat
  trackId : Nat
  x1 : Int
  y1 : Int
  x2 : Int
  y2 : Int
  tshirt : List TshirtBox
  plotSome : Bool
deriving DecidableEq

/-- Outcome of the `person_model.track(frame, ...)` call on one frame: the
tracked boxes that carry ids, or an uncaught fault raised during processing. -/
inductive TrackResult where
  | ok (boxes : List Box)
  | fault
deriving DecidableEq

/-- One decoded frame: its pixel dimensions (`frame.shape`) and what the
detect+track capability would return on it. -/
structure Frame where
  height : Int
  width : Int
  track : TrackResult
deriving DecidableEq

/-- One video task: name (`Path(video_path).stem`), whether
`cv2.VideoCapture` can open it, and its decoded frames in order. -/
structure Video where
  name : String
  canOpen : Bool
  frames : List Frame
deriving DecidableEq

/-- The `detection_data` dictionary built for a newly accepted person
(timestamp and image file names, which depend on wall-clock time, are not
modelled; `annotated` records whether an annotated image was also written). -/
structure DetectionRecord where
  videoName : String
  globalPersonNumber : Nat
  trackId : Nat
  localPersonNumber : Nat
  firstDetectedFrame : Nat
  personConfidence : ℚ
  x1 : Int
  y1 : Int
  x2 : Int
  y2 : Int
  tshirtDetections : List TshirtBox
  annotated : Bool
deriving DecidableEq

/-- Python slice index normalisation for an axis of length `n`: negative
indices count from the end, then the index is clamped into `[0, n]`. -/
def sliceIdx (n i : Int) : Int :=
  if i < 0 then max (n + i) 0 else min i n

/-- Length of the Python slice `a:b` (step 1) over an axis of length `n`;
`frame[y1:y2, x1:x2].shape = (sliceLen h y1 y2, sliceLen w x1 x2)`. -/
def sliceLen (n a b : Int) : Int :=
  max (sliceIdx n b - sliceIdx n a) 0

/-- Mutable state of one `process_single_video` run, together with the
global counter value it shares with the other workers.  `trackedPeople`
is the insertion-ordered `tracked_people` dict, `imagesWritten` counts
`cv2.imwrite` calls, and `sampledFrames` records the (1-based) frame numbers
on which `person_model.track` is invoked. -/
structure WorkerState where
  counter : Nat
  trackedPeople : List (Nat × DetectionRecord)
  detectionResults : List DetectionRecord
  localPersonCount : Nat
  imagesWritten : Nat
  sampledFrames : List Nat
deriving DecidableEq

/-- Track ids currently present in the dedup table. -/
def keys (s : WorkerState) : List Nat :=
  s.trackedPeople.map Prod.fst

/-- Body of the inner detection loop of `process_single_video` for one box of
one sampled frame: filter by confidence and person class, dedup on track id,
assign local and global person numbers, crop, reject small crops, classify,
persist images and record the detection. -/
def processBox (videoName : String) (fr : Frame) (frameNumber : Nat)
    (s : WorkerState) (b : Box) : WorkerState :=
  if b.conf > mkRat 2 5 ∧ b.cls = 0 then
    if b.trackId ∈ keys s then s
    else
      let localPersonNumber := s.localPersonCount + 1
      let globalPersonNumber := s.counter + 1
      let roiH := sliceLen fr.height b.y1 b.y2
      let roiW := sliceLen fr.width b.x1 b.x2
      if roiH < 50 ∨ roiW < 50 then
        { s with localPersonCount := localPersonNumber,
                 counter := globalPersonNumber }
      else
        let tshirtInfo := b.tshirt.filter (fun t => t.conf > mkRat 3 10)
        let d : DetectionRecord :=
          { videoName := videoName
            globalPersonNumber := globalPersonNumber
            trackId := b.trackId
            localPersonNumber := localPersonNumber
            firstDetectedFrame := frameNumber
            personConfidence := b.conf
            x1 := b.x1, y1 := b.y1, x2 := b.x2, y2 := b.y2
            tshirtDetections := tshirtInfo
            annotated := b.plotSome }
        { s with localPersonCount := localPersonNumber
                 counter := globalPersonNumber
                 trackedPeople := s.trackedPeople ++ [(b.trackId, d)]
                 detectionResults := s.detectionResults ++ [d]
                 imagesWritten := s.imagesWritten + (if b.plotSome then 2 else 1) }
  else s

/-- The frame loop of `process_single_video`: read frames in order, keep a
1-based frame number, skip frames whose number is not a multiple of 10,
invoke detect+track on the rest and fold `processBox` over the returned
boxes.  A fault of the track call aborts the run (`Except.error` carries the
state at the fault, with `videoCap.release()` never reached). -/
def runFrames (videoName : String) (s : WorkerState) (frameNumber : Nat) :
    List Frame → Except WorkerState WorkerState
  | [] => Except.ok s
  | fr :: rest =>
    let n := frameNumber + 1
    if n % 10 ≠ 0 then runFrames videoName s n rest
    else
      match fr.track with
      | TrackResult.fault =>
        Except.error { s with sampledFrames := s.sampledFrames ++ [n] }
      | TrackResult.ok boxes =>
        runFrames videoName
          (boxes.foldl (processBox videoName fr n)
            { s with sampledFrames := s.sampledFrames ++ [n] })
          n rest

/-- The `result_summary` a worker returns on success (timing fields, which
are wall-clock readings, are not modelled). -/
structure VideoResult where
  videoName : String
  totalUniquePeople : Nat
  totalFramesProcessed : Nat
  trackingIds : List Nat
  detectionResults : List DetectionRecord
deriving DecidableEq

/-- How one `process_single_video` call settles: a returned summary, the
`None` returned when the stream cannot be opened, or an uncaught fault. -/
inductive Outcome where
  | ok (r : VideoResult)
  | openFail
  | fault
deriving DecidableEq

/-- Observable effects of one `process_single_video` call: its outcome,
whether `videoCap.release()` ran, the global counter afterwards, how many
images and whether the per-video JSON artifact were written, and the frame
numbers on which detect+track was invoked. -/
structure WorkerRun where
  outcome : Outcome
  released : Bool
  counter : Nat
  imagesWritten : Nat
  jsonWritten : Bool
  sampledFrames : List Nat
deriving DecidableEq

/-- Fresh per-video state at the start of a worker run, over global counter
value `c`. -/
def initState (c : Nat) : WorkerState :=
  { counter := c, trackedPeople := [], detectionResults := []
    localPersonCount := 0, imagesWritten := 0, sampledFrames := [] }

/-- `process_single_video`: open the stream (returning the no-result signal
on failure), run the frame loop, release the stream and write the JSON
artifact on the normal path, and assemble the summary.  On a fault the
exception propagates: no release, no JSON. -/
def process_single_video (c : Nat) (v : Video) : WorkerRun :=
  if ¬ v.canOpen then
    { outcome := Outcome.openFail, released := false, counter := c
      imagesWritten := 0, jsonWritten := false, sampledFrames := [] }
  else
    match runFrames v.name (initState c) 0 v.frames with
    | Except.error s =>
      { outcome := Outcome.fault, released := false, counter := s.counter
        imagesWritten := s.imagesWritten, jsonWritten := false
        sampledFrames := s.sampledFrames }
    | Except.ok s =>
      { outcome := Outcome.ok
          { videoName := v.name
            totalUniquePeople := s.localPersonCount
            totalFramesProcessed := v.frames.length
            trackingIds := keys s
            detectionResults := s.detectionResults }
        released := true, counter := s.counter
        imagesWritten := s.imagesWritten, jsonWritten := true
        sampledFrames := s.sampledFrames }

/-- The video summary a worker returned, if any. -/
def workerResult (c : Nat) (v : Video) : Option VideoResult :=
  match (process_single_video c v).outcome with
  | Outcome.ok r => some r
  | _ => none

/-- One admissible serialization of the concurrent workers launched by
`process_multiple_videos`: run each video's worker, threading the shared
global counter through.  Returns the final counter and each video paired
with its worker's run. -/
def runAll (c : Nat) : List Video → Nat × List (Video × WorkerRun)
  | [] => (c, [])
  | v :: vs =>
    let r := process_single_video c v
    let rest := runAll r.counter vs
    (rest.1, (v, r) :: rest.2)

/-- The `as_completed` collection loop: keep the result of every future that
settles with a non-`None` result; swallow `None`s and exceptions. -/
def collectResults (runs : List (Video × WorkerRun)) : List VideoResult :=
  runs.filterMap fun p =>
    match p.2.outcome with
    | Outcome.ok r => some r
    | _ => none

/-- The `combined_results` summary (wall-clock fields are not modelled). -/
structure CombinedResult where
  totalVideosProcessed : Nat
  totalVideosRequested : Nat
  totalPeopleDetected : Nat
  individualVideoResults : List VideoResult
deriving DecidableEq

/-- `process_multiple_videos`: run all workers, collect the successful
results and aggregate them into the combined summary. -/
def process_multiple_videos (c : Nat) (videos : List Video) : CombinedResult :=
  let runs := (runAll c videos).2
  let allResults := collectResults runs
  { totalVideosProcessed := allResults.length
    totalVideosRequested := videos.length
    totalPeopleDetected := (allResults.map (fun r => r.totalUniquePeople)).sum
    individualVideoResults := allResults }

/-! Characterization functions.  These restate the control flow of the
worker loop as pure functions of the frame list, so that theorems can speak
about "the `k`-th qualifying occurrence of a track id" and the like.  Each is
a direct transcription of the corresponding branch structure of
`runFrames`/`processBox`. -/

/-- One occurrence offered to the inner detection loop: a box of a sampled
frame, together with that frame and its 1-based number. -/
structure Occ where
  frameNumber : Nat
  frame : Frame
  box : Box
deriving DecidableEq

/-- `processBox` as a step function over occurrences. -/
def stepOcc (videoName : String) (s : WorkerState) (e : Occ) : WorkerState :=
  processBox videoName e.frame e.frameNumber s e.box

/-- All occurrences the frame loop offers to the inner detection loop, in
order, starting after frame number `n0`; cut short at a faulting track call
(the loop aborts there). -/
def sampledBoxes : Nat → List Frame → List Occ
  | _, [] => []
  | n0, fr :: rest =>
    if (n0 + 1) % 10 ≠ 0 then sampledBoxes (n0 + 1) rest
    else
      match fr.track with
      | TrackResult.fault => []
      | TrackResult.ok boxes =>
        boxes.map (fun b => ⟨n0 + 1, fr, b⟩) ++ sampledBoxes (n0 + 1) rest

/-- The 1-based numbers of the frames on which the loop invokes the track
call, starting after frame number `n0`; a faulting call is still an
invocation, and the loop aborts after it. -/
def sampledNumbers : Nat → List Frame → List Nat
  | _, [] => []
  | n0, fr :: rest =>
    if (n0 + 1) % 10 ≠ 0 then sampledNumbers (n0 + 1) rest
    else
      match fr.track with
      | TrackResult.fault => [n0 + 1]
      | TrackResult.ok _ => (n0 + 1) :: sampledNumbers (n0 + 1) rest

/-- Whether the frame loop, starting after frame number `n0`, reaches a
faulting track call. -/
def hasTrackFault : Nat → List Frame → Bool
  | _, [] => false
  | n0, fr :: rest =>
    if (n0 + 1) % 10 ≠ 0 then hasTrackFault (n0 + 1) rest
    else
      match fr.track with
      | TrackResult.fault => true
      | TrackResult.ok _ => hasTrackFault (n0 + 1) rest

/-- A worker run on this video faults. -/
def videoFaults (v : Video) : Bool :=
  v.canOpen && hasTrackFault 0 v.frames

/-- A worker run on this video returns a summary. -/
def videoSucceeds (v : Video) : Bool :=
  v.canOpen && !hasTrackFault 0 v.frames

/-- The person filter of line `box.conf[0] > 0.4 and int(box.cls[0]) == 0`. -/
def qualifies (b : Box) : Bool :=
  decide (mkRat 2 5 < b.conf) && decide (b.cls = 0)

/-- The crop-size rejection test `shape[0] < 50 or shape[1] < 50`. -/
def smallCrop (fr : Frame) (b : Box) : Bool :=
  decide (sliceLen fr.height b.y1 b.y2 < 50) ||
    decide (sliceLen fr.width b.x1 b.x2 < 50)

/-- An occurrence that qualifies and survives the crop-size test. -/
def occQA (e : Occ) : Bool :=
  qualifies e.box && !smallCrop e.frame e.box

/-- The first qualifying occurrence of track id `t` with an adequate crop. -/
def firstQA (evts : List Occ) (t : Nat) : Option Occ :=
  evts.find? (fun e => occQA e && e.box.trackId == t)

/-- How many occurrences of track id `t` qualify (person class, confidence
above threshold) on sampled frames of the video. -/
def qualOccCount (v : Video) (t : Nat) : Nat :=
  ((sampledBoxes 0 v.frames).filter
    (fun e => qualifies e.box && e.box.trackId == t)).length

/-- The detection record `processBox` builds when it accepts box `b` at
frame `frameNumber` in state `s`. -/
def mkRecord (videoName : String) (frameNumber : Nat) (s : WorkerState)
    (b : Box) : DetectionRecord :=
  { videoName := videoName
    globalPersonNumber := s.counter + 1
    trackId := b.trackId
    localPersonNumber := s.localPersonCount + 1
    firstDetectedFrame := frameNumber
    personConfidence := b.conf
    x1 := b.x1, y1 := b.y1, x2 := b.x2, y2 := b.y2
    tshirtDetections := b.tshirt.filter (fun t => t.conf > mkRat 3 10)
    annotated := b.plotSome }

/-- How many occurrences reach the `local_person_count += 1` line: those
that qualify and whose track id is not yet handled.  `seen` is the set of
track ids already in the dedup table; a crop-rejected attempt counts but
does not add its id to `seen`. -/
def attemptCount (seen : List Nat) : List Occ → Nat
  | [] => 0
  | e :: rest =>
    if qualifies e.box = true ∧ e.box.trackId ∉ seen then
      if smallCrop e.frame e.box = true then 1 + attemptCount seen rest
      else 1 + attemptCount (seen ++ [e.box.trackId]) rest
    else attemptCount seen rest

/-- How many occurrences become detection records: the subset of the
attempts that survive the crop-size test. -/
def acceptCount (seen : List Nat) : List Occ → Nat
  | [] => 0
  | e :: rest =>
    if qualifies e.box = true ∧ e.box.trackId ∉ seen then
      if smallCrop e.frame e.box = true then acceptCount seen rest
      else 1 + acceptCount (seen ++ [e.box.trackId]) rest
    else acceptCount seen rest

/-- Whether a worker outcome carries a summary. -/
def Outcome.isOk : Outcome → Bool
  | Outcome.ok _ => true
  | _ => false

/-- The worker state after the frame loop of a successfully processed video:
the fold of `processBox` over all offered occurrences. -/
def finalState (name : String) (c : Nat) (fs : List Frame) : WorkerState :=
  List.foldl (stepOcc name) (initState c) (sampledBoxes 0 fs)

/-- A detection record carries exactly the data of occurrence `e`. -/
def sourcedFrom (d : DetectionRecord) (e : Occ) : Prop :=
  d.trackId = e.box.trackId ∧ d.firstDetectedFrame = e.frameNumber ∧
  d.personConfidence = e.box.conf ∧ d.x1 = e.box.x1 ∧ d.y1 = e.box.y1 ∧
  d.x2 = e.box.x2 ∧ d.y2 = e.box.y2 ∧
  d.tshirtDetections = e.box.tshirt.filter (fun t => t.conf > mkRat 3 10) ∧
  d.annotated = e.box.plotSome

/-- Dedup invariant: after the occurrences `done` have been offered to the
inner loop, a track id is in the dedup table exactly when some qualifying
occurrence of it had an adequate crop, and the records carrying it are
exactly one record sourced from the first such occurrence, or none. -/
def DedupInv (done : List Occ) (s : WorkerState) : Prop :=
  ∀ t : Nat,
    (t ∈ keys s ↔ (firstQA done t).isSome) ∧
    (firstQA done t = none →
      s.detectionResults.filter (fun d => decide (d.trackId = t)) = []) ∧
    (∀ e, firstQA done t = some e →
      ∃ d, s.detectionResults.filter (fun d => decide (d.trackId = t)) = [d]
        ∧ sourcedFrom d e)

/-! Concrete inputs used by witnesses and counterexamples. -/

/-- A 200×200 frame on which the tracker reports nothing. -/
def blankFrame : Frame :=
  { height := 200, width := 200, track := TrackResult.ok [] }

/-- A 200×200 frame on which the tracker reports the given boxes. -/
def okFrame (bs : List Box) : Frame :=
  { height := 200, width := 200, track := TrackResult.ok bs }

/-- A frame on which the track call raises. -/
def faultFrame : Frame :=
  { height := 200, width := 200, track := TrackResult.fault }

/-- A person box with confidence `1/2`, track id `tid` and bounding box
`(0, 0) – (100, y2)`; the crop is `y2` pixels tall, so it is crop-rejected
exactly when `y2 < 50`. -/
def personBox (tid : Nat) (y2 : Int) : Box :=
  { conf := mkRat 1 2, cls := 0, trackId := tid, x1 := 0, y1 := 0
    x2 := 100, y2 := y2, tshirt := [], plotSome := false }

/-- Track id 5 qualifies on sampled frames 10 and 20 but is crop-rejected
both times (10-pixel-tall crops). -/
def vidSmallTwice : Video :=
  { name := "small_twice", canOpen := true
    frames := List.replicate 9 blankFrame ++ [okFrame [personBox 5 10]]
      ++ List.replicate 9 blankFrame ++ [okFrame [personBox 5 10]] }

/-- Track id 7 qualifies with an adequate crop on sampled frames 10 and 20. -/
def vidTrackTwice : Video :=
  { name := "track_twice", canOpen := true
    frames := List.replicate 9 blankFrame ++ [okFrame [personBox 7 100]]
      ++ List.replicate 9 blankFrame ++ [okFrame [personBox 7 100]] }

/-- Track id 5 is crop-rejected on sampled frame 10 and accepted on sampled
frame 20. -/
def vidRejectThenAccept : Video :=
  { name := "reject_then_accept", canOpen := true
    frames := List.replicate 9 blankFrame ++ [okFrame [personBox 5 10]]
      ++ List.replicate 9 blankFrame ++ [okFrame [personBox 5 100]] }

/-- Two distinct adequate people on sampled frame 10. -/
def vidTwoPeople : Video :=
  { name := "two_people", canOpen := true
    frames := List.replicate 9 blankFrame
      ++ [okFrame [personBox 1 100, personBox 2 100]] }

/-- Three distinct adequate people on sampled frame 10. -/
def vidThreePeople : Video :=
  { name := "three_people", canOpen := true
    frames := List.replicate 9 blankFrame
      ++ [okFrame [personBox 3 100, personBox 4 100, personBox 5 100]] }

/-- A video that opens but whose track call on sampled frame 10 raises. -/
def vidFaulting : Video :=
  { name := "faulting", canOpen := true
    frames := List.replicate 9 blankFrame ++ [faultFrame] }

/-- A video whose stream cannot be opened. -/
def vidNoOpen : Video :=
  { name := "no_open", canOpen := false, frames := [] }

/-- A video of 25 frames with nothing to detect. -/
def vid25Frames : Video :=
  { name := "frames25", canOpen := true, frames := List.replicate 25 blankFrame }


/-! ### The global counter (C1) -/

lemma runSchedule_vals : ∀ (ws : List Nat) (c : Nat),
    (runSchedule c ws).map Prod.snd = List.range' (c + 1) ws.length
  | [], _ => rfl
  | w :: ws, c => by
    simp [runSchedule, increment, List.range'_succ, runSchedule_vals ws (c + 1)]

/-! ### Step-level behaviour of the inner detection loop -/

lemma processBox_sampledFrames (name : String) (fr : Frame) (n : Nat)
    (s : WorkerState) (b : Box) :
    (processBox name fr n s b).sampledFrames = s.sampledFrames := by
  unfold processBox
  dsimp only
  split_ifs <;> rfl

lemma processBox_set_sampled (name : String) (fr : Frame) (n : Nat)
    (s : WorkerState) (b : Box) (X : List Nat) :
    processBox name fr n { s with sampledFrames := X } b
      = { processBox name fr n s b with sampledFrames := X } := by
  unfold processBox keys
  dsimp only
  split_ifs <;> rfl

lemma processBox_of_not_qualifies (name : String) (fr : Frame) (n : Nat)
    (s : WorkerState) (b : Box) (h : qualifies b = false) :
    processBox name fr n s b = s := by
  have hq : ¬ (b.conf > mkRat 2 5 ∧ b.cls = 0) := by
    intro hc
    simp [qualifies, hc.1, hc.2] at h
  unfold processBox
  rw [if_neg hq]

lemma processBox_of_mem (name : String) (fr : Frame) (n : Nat)
    (s : WorkerState) (b : Box) (h : b.trackId ∈ keys s) :
    processBox name fr n s b = s := by
  unfold processBox
  dsimp only
  split_ifs <;> simp_all

lemma processBox_reject (name : String) (fr : Frame) (n : Nat)
    (s : WorkerState) (b : Box) (hq : qualifies b = true)
    (hmem : b.trackId ∉ keys s) (hsmall : smallCrop fr b = true) :
    processBox name fr n s b
      = { s with localPersonCount := s.localPersonCount + 1,
                 counter := s.counter + 1 } := by
  have hq' : b.conf > mkRat 2 5 ∧ b.cls = 0 := by
    simpa [qualifies] using hq
  have hs : sliceLen fr.height b.y1 b.y2 < 50 ∨ sliceLen fr.width b.x1 b.x2 < 50 := by
    simpa [smallCrop] using hsmall
  unfold processBox
  rw [if_pos hq', if_neg hmem, if_pos hs]

lemma processBox_accept (name : String) (fr : Frame) (n : Nat)
    (s : WorkerState) (b : Box) (hq : qualifies b = true)
    (hmem : b.trackId ∉ keys s) (hbig : smallCrop fr b = false) :
    processBox name fr n s b
      = { s with counter := s.counter + 1,
                 trackedPeople := s.trackedPeople ++ [(b.trackId, mkRecord name n s b)],
                 detectionResults := s.detectionResults ++ [mkRecord name n s b],
                 localPersonCount := s.localPersonCount + 1,
                 imagesWritten := s.imagesWritten + (if b.plotSome then 2 else 1) } := by
  have hq' : b.conf > mkRat 2 5 ∧ b.cls = 0 := by
    simpa [qualifies] using hq
  have hs : ¬ (sliceLen fr.height b.y1 b.y2 < 50 ∨ sliceLen fr.width b.x1 b.x2 < 50) := by
    simpa [smallCrop, not_or] using hbig
  unfold processBox
  rw [if_pos hq', if_neg hmem, if_neg hs]
  rfl

lemma foldl_processBox_set_sampled (name : String) (fr : Frame) (n : Nat) :
    ∀ (bs : List Box) (s : WorkerState) (X : List Nat),
    bs.foldl (processBox name fr n) { s with sampledFrames := X }
      = { bs.foldl (processBox name fr n) s with sampledFrames := X }
  | [], s, X => rfl
  | b :: bs, s, X => by
    rw [List.foldl_cons, List.foldl_cons, processBox_set_sampled,
        foldl_processBox_set_sampled name fr n bs]

lemma foldl_stepOcc_set_sampled (name : String) :
    ∀ (E : List Occ) (s : WorkerState) (X : List Nat),
    E.foldl (stepOcc name) { s with sampledFrames := X }
      = { E.foldl (stepOcc name) s with sampledFrames := X }
  | [], s, X => rfl
  | e :: E, s, X => by
    rw [List.foldl_cons, List.foldl_cons]
    show E.foldl (stepOcc name) (processBox name e.frame e.frameNumber { s with sampledFrames := X } e.box) = _
    rw [processBox_set_sampled, foldl_stepOcc_set_sampled name E]
    rfl

lemma runFrames_ok (name : String) : ∀ (fs : List Frame) (n : Nat) (s : WorkerState),
    hasTrackFault n fs = false →
    runFrames name s n fs = Except.ok
      { List.foldl (stepOcc name) s (sampledBoxes n fs) with
        sampledFrames := s.sampledFrames ++ sampledNumbers n fs }
  | [], n, s, _ => by
    simp [runFrames, sampledBoxes, sampledNumbers]
  | fr :: rest, n, s, h => by
    by_cases hn : (n + 1) % 10 = 0
    · cases htr : fr.track with
      | fault =>
        exfalso
        simp [hasTrackFault, hn, htr] at h
      | ok boxes =>
        have h' : hasTrackFault (n + 1) rest = false := by
          simpa [hasTrackFault, hn, htr] using h
        have ih := runFrames_ok name rest (n + 1)
          (boxes.foldl (processBox name fr (n + 1))
            { s with sampledFrames := s.sampledFrames ++ [n + 1] }) h'
        simp only [runFrames, sampledBoxes, sampledNumbers, hn, htr]
        simp only [ne_eq, not_true_eq_false, if_false, ite_false]
        rw [ih, foldl_processBox_set_sampled, foldl_stepOcc_set_sampled,
            List.foldl_append, List.foldl_map]
        simp [List.append_assoc, stepOcc]
    · have hn' : ((n + 1) % 10 ≠ 0) = True := by simp [hn]
      have h' : hasTrackFault (n + 1) rest = false := by
        simpa [hasTrackFault, hn] using h
      have ih := runFrames_ok name rest (n + 1) s h'
      simp only [runFrames, sampledBoxes, sampledNumbers, hn', if_true]
      exact ih

lemma runFrames_fault (name : String) : ∀ (fs : List Frame) (n : Nat) (s : WorkerState),
    hasTrackFault n fs = true →
    ∃ t, runFrames name s n fs = Except.error t
  | [], n, s, h => by simp [hasTrackFault] at h
  | fr :: rest, n, s, h => by
    by_cases hn : (n + 1) % 10 = 0
    · cases htr : fr.track with
      | fault =>
        refine ⟨{ s with sampledFrames := s.sampledFrames ++ [n + 1] }, ?_⟩
        simp [runFrames, hn, htr]
      | ok boxes =>
        have h' : hasTrackFault (n + 1) rest = true := by
          simpa [hasTrackFault, hn, htr] using h
        obtain ⟨t, ht⟩ := runFrames_fault name rest (n + 1)
          (boxes.foldl (processBox name fr (n + 1))
            { s with sampledFrames := s.sampledFrames ++ [n + 1] }) h'
        refine ⟨t, ?_⟩
        simp only [runFrames, hn]
        simp only [ne_eq, not_true_eq_false, if_false, ite_false, htr]
        exact ht
    · have h' : hasTrackFault (n + 1) rest = true := by
        simpa [hasTrackFault, hn] using h
      obtain ⟨t, ht⟩ := runFrames_fault name rest (n + 1) s h'
      refine ⟨t, ?_⟩
      have hn' : ((n + 1) % 10 ≠ 0) = True := by simp [hn]
      simp only [runFrames, hn', if_true]
      exact ht

lemma process_single_video_ok (c : Nat) (v : Video) (hopen : v.canOpen = true)
    (hnf : hasTrackFault 0 v.frames = false) :
    process_single_video c v =
      { outcome := Outcome.ok
          { videoName := v.name
            totalUniquePeople := (finalState v.name c v.frames).localPersonCount
            totalFramesProcessed := v.frames.length
            trackingIds := keys (finalState v.name c v.frames)
            detectionResults := (finalState v.name c v.frames).detectionResults }
        released := true
        counter := (finalState v.name c v.frames).counter
        imagesWritten := (finalState v.name c v.frames).imagesWritten
        jsonWritten := true
        sampledFrames := sampledNumbers 0 v.frames } := by
  have hrw := runFrames_ok v.name v.frames 0 (initState c) hnf
  unfold process_single_video
  rw [if_neg (by simp [hopen]), hrw]
  simp [finalState, initState, keys]

lemma process_single_video_fault (c : Nat) (v : Video) (hopen : v.canOpen = true)
    (hf : hasTrackFault 0 v.frames = true) :
    (process_single_video c v).outcome = Outcome.fault ∧
    (process_single_video c v).released = false ∧
    (process_single_video c v).jsonWritten = false := by
  obtain ⟨t, ht⟩ := runFrames_fault v.name v.frames 0 (initState c) hf
  simp [process_single_video, hopen, ht]

lemma process_single_video_noOpen (c : Nat) (v : Video) (h : v.canOpen = false) :
    process_single_video c v =
      { outcome := Outcome.openFail, released := false, counter := c
        imagesWritten := 0, jsonWritten := false, sampledFrames := [] } := by
  simp [process_single_video, h]

/-- C1: for every serialized schedule of concurrent `increment` calls on the
global identity counter, each call returns one more than the previous call,
the first call returns 1, no two calls return the same value, and the values
issued form the dense sequence 1, ..., total issued. -/
theorem C1_global_counter (ws : List Nat) :
    ((runSchedule 0 ws).map Prod.snd = List.range' 1 ws.length) ∧
    (∀ i : Nat, i + 1 < ws.length →
      ((runSchedule 0 ws).map Prod.snd)[i + 1]? = some (i + 2) ∧
      ((runSchedule 0 ws).map Prod.snd)[i]? = some (i + 1)) ∧
    (0 < ws.length → ((runSchedule 0 ws).map Prod.snd)[0]? = some 1) ∧
    ((runSchedule 0 ws).map Prod.snd).Nodup ∧
    (∀ v : Nat, v ∈ (runSchedule 0 ws).map Prod.snd ↔ 1 ≤ v ∧ v ≤ ws.length) := by
  have h := runSchedule_vals ws 0
  rw [h]
  refine ⟨rfl, ?_, ?_, List.nodup_range' 1 ws.length, ?_⟩
  · intro i hi
    rw [List.getElem?_range' _ _ hi, List.getElem?_range' _ _ (Nat.lt_of_succ_lt hi)]
    constructor <;> · simp only [Option.some.injEq]; omega
  · intro h0
    rw [List.getElem?_range' _ _ h0]
  · intro v
    rw [List.mem_range'_1]
    omega

/-- C1 witness: a concrete three-call schedule from two interleaved workers. -/
theorem C1_global_counter_witness :
    ((runSchedule 0 [7, 3, 7]).map Prod.snd)[1]? = some 2 ∧
    ((runSchedule 0 [7, 3, 7]).map Prod.snd)[0]? = some 1 ∧
    ((runSchedule 0 [7, 3, 7]).map Prod.snd).Nodup :=
  ⟨((C1_global_counter [7, 3, 7]).2.1 0 (by decide)).1,
   (C1_global_counter [7, 3, 7]).2.2.1 (by decide),
   (C1_global_counter [7, 3, 7]).2.2.2.1⟩

/-- C3: a qualifying detection of a new track id whose crop is under 50
pixels in either dimension produces no detection record, persists no image,
is not inserted into the dedup table, and its track id stays eligible for
re-evaluation. -/
theorem C3_small_crop_rejected (videoName : String) (fr : Frame) (n : Nat)
    (s : WorkerState) (b : Box)
    (hq : b.conf > mkRat 2 5 ∧ b.cls = 0)
    (hnew : b.trackId ∉ keys s)
    (hsmall : sliceLen fr.height b.y1 b.y2 < 50 ∨ sliceLen fr.width b.x1 b.x2 < 50) :
    (processBox videoName fr n s b).detectionResults = s.detectionResults ∧
    (processBox videoName fr n s b).imagesWritten = s.imagesWritten ∧
    (processBox videoName fr n s b).trackedPeople = s.trackedPeople ∧
    b.trackId ∉ keys (processBox videoName fr n s b) := by
  have hq' : qualifies b = true := by simp [qualifies, hq.1, hq.2]
  have hs' : smallCrop fr b = true := by
    rcases hsmall with h | h <;> simp [smallCrop, h]
  rw [processBox_reject videoName fr n s b hq' hnew hs']
  exact ⟨rfl, rfl, rfl, hnew⟩

/-- C3 witness: a confident person box whose crop is only 10 pixels tall,
offered on frame 10 of a fresh worker. -/
theorem C3_small_crop_rejected_witness :
    (processBox "v" (okFrame []) 10 (initState 0) (personBox 5 10)).detectionResults
        = (initState 0).detectionResults ∧
    (processBox "v" (okFrame []) 10 (initState 0) (personBox 5 10)).imagesWritten
        = (initState 0).imagesWritten ∧
    (processBox "v" (okFrame []) 10 (initState 0) (personBox 5 10)).trackedPeople
        = (initState 0).trackedPeople ∧
    (personBox 5 10).trackId ∉ keys (processBox "v" (okFrame []) 10 (initState 0) (personBox 5 10)) :=
  C3_small_crop_rejected "v" (okFrame []) 10 (initState 0) (personBox 5 10)
    (by decide) (by decide) (by decide)

/-- C8: evaluating the worker at a video that opens and whose track call on
the first sampled frame raises shows that the fault propagates without
`videoCap.release()` ever running: the stream is not released on this exit
path, contrary to the release-on-every-exit-path requirement. -/
theorem C8_release_skipped_on_fault :
    (process_single_video 0 vidFaulting).outcome = Outcome.fault ∧
    (process_single_video 0 vidFaulting).released = false := by
  decide

lemma sampledNumbers_eq : ∀ (fs : List Frame) (n : Nat),
    hasTrackFault n fs = false →
    sampledNumbers n fs = (List.range' (n + 1) fs.length).filter (fun k => k % 10 = 0)
  | [], _, _ => rfl
  | fr :: rest, n, h => by
    rw [List.length_cons, List.range'_succ]
    by_cases hn : (n + 1) % 10 = 0
    · cases htr : fr.track with
      | fault =>
        exfalso
        simp [hasTrackFault, hn, htr] at h
      | ok boxes =>
        have h' : hasTrackFault (n + 1) rest = false := by
          simpa [hasTrackFault, hn, htr] using h
        simp [sampledNumbers, hn, htr, List.filter_cons,
          sampledNumbers_eq rest (n + 1) h']
    · have h' : hasTrackFault (n + 1) rest = false := by
        simpa [hasTrackFault, hn] using h
      simp [sampledNumbers, hn, List.filter_cons,
        sampledNumbers_eq rest (n + 1) h']

lemma length_filter_multiples : ∀ F : Nat,
    ((List.range' 1 F).filter (fun k => k % 10 = 0)).length = F / 10
  | 0 => rfl
  | F + 1 => by
    rw [List.range'_1_concat, List.filter_append, List.length_append,
        length_filter_multiples F, Nat.succ_div]
    have h2 : (10 ∣ F + 1) ↔ ((1 + F) % 10 = 0) := by
      rw [Nat.add_comm 1 F]
      exact Nat.dvd_iff_mod_eq_zero
    simp only [List.filter_cons, List.filter_nil, h2, decide_eq_true_eq]
    split <;> simp

/-- C10: for a video of `F` decoded frames (and no faulting track call),
detect+track is invoked exactly on the frames whose 1-based index is a
multiple of 10, hence on exactly `F / 10` frames. -/
theorem C10_sampling_stride (c : Nat) (v : Video)
    (hopen : v.canOpen = true) (hnf : hasTrackFault 0 v.frames = false) :
    (process_single_video c v).sampledFrames
        = (List.range' 1 v.frames.length).filter (fun k => k % 10 = 0) ∧
    (∀ k : Nat, k ∈ (process_single_video c v).sampledFrames ↔
        (1 ≤ k ∧ k ≤ v.frames.length ∧ k % 10 = 0)) ∧
    (process_single_video c v).sampledFrames.length = v.frames.length / 10 := by
  rw [process_single_video_ok c v hopen hnf]
  dsimp only
  rw [sampledNumbers_eq v.frames 0 hnf]
  refine ⟨rfl, ?_, length_filter_multiples v.frames.length⟩
  intro k
  simp only [List.mem_filter, List.mem_range'_1, decide_eq_true_eq]
  omega

/-- C10 witness: a 25-frame video is sampled exactly on frames 10 and 20,
and `⌊25/10⌋ = 2` frames are offered to detection. -/
theorem C10_sampling_stride_witness :
    (process_single_video 0 vid25Frames).sampledFrames = [10, 20] ∧
    (process_single_video 0 vid25Frames).sampledFrames.length = 2 :=
  ⟨((C10_sampling_stride 0 vid25Frames rfl (by decide)).1).trans (by decide),
   ((C10_sampling_stride 0 vid25Frames rfl (by decide)).2.2).trans (by decide)⟩

lemma outcome_ok_origin (c : Nat) (v : Video) (res : VideoResult)
    (h : (process_single_video c v).outcome = Outcome.ok res) :
    videoSucceeds v = true ∧ res.videoName = v.name := by
  by_cases hopen : v.canOpen = true
  · by_cases hf : hasTrackFault 0 v.frames = true
    · rw [(process_single_video_fault c v hopen hf).1] at h
      cases h
    · have hf' : hasTrackFault 0 v.frames = false := by
        simpa using hf
      rw [process_single_video_ok c v hopen hf'] at h
      refine ⟨by simp [videoSucceeds, hopen, hf'], ?_⟩
      cases h
      rfl
  · have hopen' : v.canOpen = false := by simpa using hopen
    rw [process_single_video_noOpen c v hopen'] at h
    cases h

lemma mem_collectResults : ∀ (vs : List Video) (c : Nat) (r : VideoResult),
    r ∈ collectResults (runAll c vs).2 →
    ∃ w ∈ vs, videoSucceeds w = true ∧ r.videoName = w.name
  | [], _, r, h => by simp [runAll, collectResults] at h
  | v :: vs, c, r, h => by
    rw [show (runAll c (v :: vs)).2
        = (v, process_single_video c v) :: (runAll (process_single_video c v).counter vs).2
      from rfl] at h
    rw [collectResults, List.filterMap_cons] at h
    rcases hout : (process_single_video c v).outcome with res | _ | _
    · rw [hout] at h
      rcases (List.mem_cons).1 h with h1 | h2
      · subst h1
        obtain ⟨hs, hn⟩ := outcome_ok_origin c v r hout
        exact ⟨v, List.mem_cons_self v vs, hs, hn⟩
      · obtain ⟨w, hw, hws, hwn⟩ :=
          mem_collectResults vs (process_single_video c v).counter r h2
        exact ⟨w, List.mem_cons_of_mem v hw, hws, hwn⟩
    · rw [hout] at h
      obtain ⟨w, hw, hws, hwn⟩ :=
        mem_collectResults vs (process_single_video c v).counter r h
      exact ⟨w, List.mem_cons_of_mem v hw, hws, hwn⟩
    · rw [hout] at h
      obtain ⟨w, hw, hws, hwn⟩ :=
        mem_collectResults vs (process_single_video c v).counter r h
      exact ⟨w, List.mem_cons_of_mem v hw, hws, hwn⟩

lemma collectResults_cons_ok (p : Video × WorkerRun) (ps : List (Video × WorkerRun))
    (r : VideoResult) (h : p.2.outcome = Outcome.ok r) :
    collectResults (p :: ps) = r :: collectResults ps := by
  simp [collectResults, List.filterMap_cons, h]

lemma collectResults_cons_fault (p : Video × WorkerRun) (ps : List (Video × WorkerRun))
    (h : p.2.outcome = Outcome.fault) :
    collectResults (p :: ps) = collectResults ps := by
  simp [collectResults, List.filterMap_cons, h]

lemma collectResults_cons_openFail (p : Video × WorkerRun) (ps : List (Video × WorkerRun))
    (h : p.2.outcome = Outcome.openFail) :
    collectResults (p :: ps) = collectResults ps := by
  simp [collectResults, List.filterMap_cons, h]

lemma collectResults_length : ∀ (vs : List Video) (c : Nat),
    (collectResults (runAll c vs).2).length
      = (vs.filter (fun w => videoSucceeds w)).length
  | [], _ => rfl
  | v :: vs, c => by
    rw [show (runAll c (v :: vs)).2
        = (v, process_single_video c v) :: (runAll (process_single_video c v).counter vs).2
      from rfl]
    by_cases hopen : v.canOpen = true
    · by_cases hf : hasTrackFault 0 v.frames = true
      · have hout := (process_single_video_fault c v hopen hf).1
        have hsuc : videoSucceeds v = false := by simp [videoSucceeds, hopen, hf]
        rw [collectResults_cons_fault _ _ hout,
            List.filter_cons_of_neg (by simp [hsuc])]
        exact collectResults_length vs _
      · have hf' : hasTrackFault 0 v.frames = false := by simpa using hf
        have hout := process_single_video_ok c v hopen hf'
        have hsuc : videoSucceeds v = true := by simp [videoSucceeds, hopen, hf']
        have hout' : (process_single_video c v).outcome = Outcome.ok
            { videoName := v.name
              totalUniquePeople := (finalState v.name c v.frames).localPersonCount
              totalFramesProcessed := v.frames.length
              trackingIds := keys (finalState v.name c v.frames)
              detectionResults := (finalState v.name c v.frames).detectionResults } := by
          rw [hout]
        rw [collectResults_cons_ok _ _ _ hout',
            List.filter_cons_of_pos (by simp [hsuc]),
            List.length_cons, List.length_cons, collectResults_length vs]
    · have hopen' : v.canOpen = false := by simpa using hopen
      have hout := process_single_video_noOpen c v hopen'
      have hout' : (process_single_video c v).outcome = Outcome.openFail := by
        rw [hout]
      have hsuc : videoSucceeds v = false := by simp [videoSucceeds, hopen']
      rw [collectResults_cons_openFail _ _ hout',
          List.filter_cons_of_neg (by simp [hsuc])]
      exact collectResults_length vs _

lemma length_filter_of_one_failure {α : Type} [DecidableEq α] (p : α → Bool)
    (v : α) : ∀ (vs : List α), v ∈ vs → vs.count v = 1 → p v = false →
    (∀ w ∈ vs, w ≠ v → p w = true) →
    (vs.filter p).length = vs.length - 1
  | [], hmem, _, _, _ => by cases hmem
  | v' :: vs, hmem, hcount, hpv, hothers => by
    by_cases hv : v' = v
    · subst hv
      have hnot : v' ∉ vs := by
        rw [List.count_cons_self] at hcount
        have : vs.count v' = 0 := by omega
        exact (List.count_eq_zero).1 this
      have hall : vs.filter p = vs := by
        rw [List.filter_eq_self]
        intro w hw
        exact hothers w (List.mem_cons_of_mem v' hw)
          (fun he => hnot (he ▸ hw))
      rw [List.filter_cons_of_neg (by simp [hpv]), hall]
      simp
    · have hmem' : v ∈ vs := by
        rcases (List.mem_cons).1 hmem with h | h
        · exact absurd h.symm hv
        · exact h
      have hcount' : vs.count v = 1 := by
        rwa [List.count_cons_of_ne (Ne.symm hv)] at hcount
      have hp' : p v' = true := hothers v' (List.mem_cons_self v' vs) hv
      rw [List.filter_cons_of_pos (by simp [hp'])]
      rw [List.length_cons, List.length_cons,
        length_filter_of_one_failure p v vs hmem' hcount' hpv
          (fun w hw hne => hothers w (List.mem_cons_of_mem v' hw) hne)]
      have : 0 < vs.length := List.length_pos_of_mem hmem'
      omega

/-- C6: if among the submitted videos exactly one faults and every other
one succeeds, the run still collects all other results: the combined
summary reports `N - 1` processed videos, its per-video list has `N - 1`
entries, and (given distinct video names) the faulted video is absent from
that list. -/
theorem C6_fault_isolation (c : Nat) (vs : List Video) (v : Video)
    (hmem : v ∈ vs) (hcount : vs.count v = 1)
    (hfault : videoFaults v = true)
    (hothers : ∀ w ∈ vs, w ≠ v → videoSucceeds w = true) :
    (process_multiple_videos c vs).totalVideosProcessed = vs.length - 1 ∧
    (process_multiple_videos c vs).individualVideoResults.length = vs.length - 1 ∧
    ((∀ w ∈ vs, w.name = v.name → w = v) →
      v.name ∉ (process_multiple_videos c vs).individualVideoResults.map
        (fun r => r.videoName)) := by
  have hps : videoSucceeds v = false := by
    have h1 : v.canOpen = true := by
      simp [videoFaults] at hfault
      exact hfault.1
    have h2 : hasTrackFault 0 v.frames = true := by
      simp [videoFaults] at hfault
      exact hfault.2
    simp [videoSucceeds, h1, h2]
  have hlen := collectResults_length vs c
  rw [length_filter_of_one_failure (fun w => videoSucceeds w) v vs hmem hcount hps
    hothers] at hlen
  refine ⟨hlen, hlen, ?_⟩
  intro huniq hname
  rw [List.mem_map] at hname
  obtain ⟨r, hr, hrn⟩ := hname
  obtain ⟨w, hw, hws, hwn⟩ := mem_collectResults vs c r hr
  have hwv : w = v := huniq w hw (by rw [← hwn, hrn])
  rw [hwv] at hws
  rw [hws] at hps
  cases hps

/-- C6 witness: three videos of which the middle one faults; the combined
summary reports two successes and omits the faulting video. -/
theorem C6_fault_isolation_witness :
    (process_multiple_videos 0 [vidTwoPeople, vidFaulting, vidThreePeople]).totalVideosProcessed = 2 ∧
    vidFaulting.name ∉
      (process_multiple_videos 0 [vidTwoPeople, vidFaulting, vidThreePeople]).individualVideoResults.map
        (fun r => r.videoName) :=
  ⟨((C6_fault_isolation 0 [vidTwoPeople, vidFaulting, vidThreePeople] vidFaulting
      (by decide) (by decide) (by decide) (by decide)).1).trans (by decide),
   (C6_fault_isolation 0 [vidTwoPeople, vidFaulting, vidThreePeople] vidFaulting
      (by decide) (by decide) (by decide) (by decide)).2.2 (by decide)⟩

/-- C7: when the stream cannot be opened the worker returns the no-result
signal with no artifacts written and the counter untouched, and the
orchestrator excludes the video from the success set (given distinct video
names, its name is absent from the per-video list). -/
theorem C7_open_failure (c : Nat) (v : Video) (h : v.canOpen = false) :
    process_single_video c v =
      { outcome := Outcome.openFail, released := false, counter := c
        imagesWritten := 0, jsonWritten := false, sampledFrames := [] } ∧
    ∀ (c0 : Nat) (vs : List Video), v ∈ vs →
      (∀ w ∈ vs, w.name = v.name → w = v) →
      v.name ∉ (process_multiple_videos c0 vs).individualVideoResults.map
        (fun r => r.videoName) := by
  refine ⟨process_single_video_noOpen c v h, ?_⟩
  intro c0 vs hmem huniq hname
  rw [List.mem_map] at hname
  obtain ⟨r, hr, hrn⟩ := hname
  obtain ⟨w, hw, hws, hwn⟩ := mem_collectResults vs c0 r hr
  have hwv : w = v := huniq w hw (by rw [← hwn, hrn])
  rw [hwv] at hws
  simp [videoSucceeds, h] at hws

/-- C7 witness: a video that fails to open, alone and alongside a
successful one. -/
theorem C7_open_failure_witness :
    process_single_video 3 vidNoOpen =
      { outcome := Outcome.openFail, released := false, counter := 3
        imagesWritten := 0, jsonWritten := false, sampledFrames := [] } ∧
    vidNoOpen.name ∉
      (process_multiple_videos 0 [vidNoOpen, vidTwoPeople]).individualVideoResults.map
        (fun r => r.videoName) :=
  ⟨(C7_open_failure 3 vidNoOpen rfl).1,
   (C7_open_failure 3 vidNoOpen rfl).2 0 [vidNoOpen, vidTwoPeople]
     (by decide) (by decide)⟩

/-- C9: the aggregator computes the run-wide total as the sum of each
collected summary's unique-person count and reports exactly the successful
results; concretely, two videos yielding 2 and 3 unique people give
`total_people = 5` and a per-video list of length 2. -/
theorem C9_result_aggregation :
    (∀ (c : Nat) (vs : List Video),
      (process_multiple_videos c vs).totalPeopleDetected
          = ((collectResults (runAll c vs).2).map (fun r => r.totalUniquePeople)).sum ∧
      (process_multiple_videos c vs).individualVideoResults
          = collectResults (runAll c vs).2 ∧
      (process_multiple_videos c vs).totalVideosProcessed
          = (collectResults (runAll c vs).2).length) ∧
    (process_multiple_videos 0 [vidTwoPeople, vidThreePeople]).totalPeopleDetected = 5 ∧
    (process_multiple_videos 0 [vidTwoPeople, vidThreePeople]).individualVideoResults.length = 2 ∧
    (process_multiple_videos 0 [vidTwoPeople, vidThreePeople]).individualVideoResults.map
        (fun r => r.totalUniquePeople) = [2, 3] := by
  refine ⟨fun c vs => ⟨rfl, rfl, rfl⟩, ?_, ?_, ?_⟩ <;> decide

lemma acceptCount_le_attemptCount : ∀ (E : List Occ) (seen : List Nat),
    acceptCount seen E ≤ attemptCount seen E
  | [], _ => Nat.le_refl 0
  | e :: E, seen => by
    rw [attemptCount, acceptCount]
    split_ifs with h1 h2
    · have := acceptCount_le_attemptCount E seen
      omega
    · have := acceptCount_le_attemptCount E (seen ++ [e.box.trackId])
      omega
    · exact acceptCount_le_attemptCount E seen

lemma foldl_counts (name : String) : ∀ (E : List Occ) (s : WorkerState),
    (E.foldl (stepOcc name) s).localPersonCount
        = s.localPersonCount + attemptCount (keys s) E ∧
    (E.foldl (stepOcc name) s).counter = s.counter + attemptCount (keys s) E ∧
    (E.foldl (stepOcc name) s).detectionResults.length
        = s.detectionResults.length + acceptCount (keys s) E
  | [], s => by simp [attemptCount, acceptCount]
  | e :: E, s => by
    rw [List.foldl_cons, attemptCount, acceptCount]
    by_cases hq : qualifies e.box = true
    · by_cases hmem : e.box.trackId ∈ keys s
      · have hcond : ¬ (qualifies e.box = true ∧ e.box.trackId ∉ keys s) :=
          fun hc => hc.2 hmem
        rw [if_neg hcond, if_neg hcond,
            show stepOcc name s e = s from
              processBox_of_mem name e.frame e.frameNumber s e.box hmem]
        exact foldl_counts name E s
      · by_cases hsm : smallCrop e.frame e.box = true
        · have hcond : qualifies e.box = true ∧ e.box.trackId ∉ keys s := ⟨hq, hmem⟩
          rw [if_pos hcond, if_pos hcond, if_pos hsm, if_pos hsm,
              show stepOcc name s e = _ from
                processBox_reject name e.frame e.frameNumber s e.box hq hmem hsm]
          set s2 : WorkerState :=
            { s with localPersonCount := s.localPersonCount + 1, counter := s.counter + 1 }
            with hs2
          have ih := foldl_counts name E s2
          have hk : keys s2 = keys s := by
            rw [hs2]
            simp [keys]
          rw [hk] at ih
          obtain ⟨ih1, ih2, ih3⟩ := ih
          have hl : s2.localPersonCount = s.localPersonCount + 1 := by rw [hs2]
          have hc2 : s2.counter = s.counter + 1 := by rw [hs2]
          have hd : s2.detectionResults.length = s.detectionResults.length := by rw [hs2]
          rw [hl] at ih1
          rw [hc2] at ih2
          rw [hd] at ih3
          refine ⟨by rw [ih1]; omega, by rw [ih2]; omega, by rw [ih3]⟩
        · have hsm' : smallCrop e.frame e.box = false := by simpa using hsm
          have hcond : qualifies e.box = true ∧ e.box.trackId ∉ keys s := ⟨hq, hmem⟩
          rw [if_pos hcond, if_pos hcond, if_neg (by simp [hsm']), if_neg (by simp [hsm']),
              show stepOcc name s e = _ from
                processBox_accept name e.frame e.frameNumber s e.box hq hmem hsm']
          set s2 : WorkerState :=
            { s with counter := s.counter + 1,
                     trackedPeople := s.trackedPeople
                       ++ [(e.box.trackId, mkRecord name e.frameNumber s e.box)],
                     detectionResults := s.detectionResults
                       ++ [mkRecord name e.frameNumber s e.box],
                     localPersonCount := s.localPersonCount + 1,
                     imagesWritten := s.imagesWritten + (if e.box.plotSome then 2 else 1) }
            with hs2
          have ih := foldl_counts name E s2
          have hk : keys s2 = keys s ++ [e.box.trackId] := by
            rw [hs2]
            simp [keys]
          rw [hk] at ih
          obtain ⟨ih1, ih2, ih3⟩ := ih
          have hl : s2.localPersonCount = s.localPersonCount + 1 := by rw [hs2]
          have hc2 : s2.counter = s.counter + 1 := by rw [hs2]
          have hd : s2.detectionResults.length = s.detectionResults.length + 1 := by
            rw [hs2]
            simp
          rw [hl] at ih1
          rw [hc2] at ih2
          rw [hd] at ih3
          refine ⟨by rw [ih1]; omega, by rw [ih2]; omega, by rw [ih3]; omega⟩
    · have hq' : qualifies e.box = false := by simpa using hq
      have hcond : ¬ (qualifies e.box = true ∧ e.box.trackId ∉ keys s) := by
        rw [hq']
        intro hc
        cases hc.1
      rw [if_neg hcond, if_neg hcond,
          show stepOcc name s e = s from
            processBox_of_not_qualifies name e.frame e.frameNumber s e.box hq']
      exact foldl_counts name E s

/-- C5: a video's reported unique-people count equals the number of
occurrences on which a not-yet-deduplicated track id passed the
person-and-confidence filter (crop-rejected attempts included); DetectionRecords
count only the accepted subset, so the reported count can exceed the number
of records; every attempt also consumes one global number; and the run-wide
total sums exactly these per-video counts. -/
theorem C5_rejected_attempts_counted (c : Nat) (v : Video)
    (hopen : v.canOpen = true) (hnf : hasTrackFault 0 v.frames = false) :
    (workerResult c v).map (fun r => r.totalUniquePeople)
        = some (attemptCount [] (sampledBoxes 0 v.frames)) ∧
    (workerResult c v).map (fun r => r.detectionResults.length)
        = some (acceptCount [] (sampledBoxes 0 v.frames)) ∧
    acceptCount [] (sampledBoxes 0 v.frames)
        ≤ attemptCount [] (sampledBoxes 0 v.frames) ∧
    (process_single_video c v).counter
        = c + attemptCount [] (sampledBoxes 0 v.frames) ∧
    (∀ (c0 : Nat) (vss : List Video),
      (process_multiple_videos c0 vss).totalPeopleDetected
        = ((collectResults (runAll c0 vss).2).map (fun r => r.totalUniquePeople)).sum) := by
  have hrun := process_single_video_ok c v hopen hnf
  have hcounts := foldl_counts v.name (sampledBoxes 0 v.frames) (initState c)
  rw [show keys (initState c) = [] from rfl] at hcounts
  have h1 : (finalState v.name c v.frames).localPersonCount
      = attemptCount [] (sampledBoxes 0 v.frames) := by
    rw [finalState, hcounts.1]
    simp [initState]
  have h2 : (finalState v.name c v.frames).detectionResults.length
      = acceptCount [] (sampledBoxes 0 v.frames) := by
    rw [finalState, hcounts.2.2]
    simp [initState]
  have h3 : (finalState v.name c v.frames).counter
      = c + attemptCount [] (sampledBoxes 0 v.frames) := by
    rw [finalState, hcounts.2.1]
    simp [initState]
  refine ⟨?_, ?_, acceptCount_le_attemptCount _ _, ?_, fun c0 vss => rfl⟩
  · rw [workerResult, hrun]
    exact congrArg some h1
  · rw [workerResult, hrun]
    exact congrArg some h2
  · rw [hrun]
    exact h3

/-- C5 witness: track id 5 is crop-rejected on frame 10 and accepted on
frame 20: the video reports 2 unique people, has 1 DetectionRecord, and
consumed 2 global numbers. -/
theorem C5_rejected_attempts_counted_witness :
    (workerResult 0 vidRejectThenAccept).map (fun r => r.totalUniquePeople) = some 2 ∧
    (workerResult 0 vidRejectThenAccept).map (fun r => r.detectionResults.length) = some 1 ∧
    (process_single_video 0 vidRejectThenAccept).counter = 2 :=
  ⟨((C5_rejected_attempts_counted 0 vidRejectThenAccept rfl (by decide)).1).trans (by decide),
   ((C5_rejected_attempts_counted 0 vidRejectThenAccept rfl (by decide)).2.1).trans (by decide),
   ((C5_rejected_attempts_counted 0 vidRejectThenAccept rfl (by decide)).2.2.2.1).trans (by decide)⟩

lemma stepOcc_eq (name : String) (s : WorkerState) (e : Occ) :
    stepOcc name s e = processBox name e.frame e.frameNumber s e.box := rfl

lemma firstQA_append_single (done : List Occ) (e : Occ) (t : Nat) :
    firstQA (done ++ [e]) t
      = (firstQA done t).or
          (if occQA e && e.box.trackId == t then some e else none) := by
  rw [firstQA, List.find?_append, firstQA]
  congr 1
  by_cases hp : (occQA e && e.box.trackId == t) = true <;>
    simp [List.find?, hp]

lemma dedupInv_step (name : String) (done : List Occ) (s : WorkerState) (e : Occ)
    (h : DedupInv done s) : DedupInv (done ++ [e]) (stepOcc name s e) := by
  intro t
  have ht := h t
  by_cases hq : qualifies e.box = true
  · by_cases hmem : e.box.trackId ∈ keys s
    · rw [show stepOcc name s e = s from
        processBox_of_mem name e.frame e.frameNumber s e.box hmem]
      rw [firstQA_append_single]
      by_cases hte : e.box.trackId = t
      · have hsome : (firstQA done t).isSome := (h t).1.mp (hte ▸ hmem)
        obtain ⟨x, hx⟩ := Option.isSome_iff_exists.1 hsome
        rw [hx]
        refine ⟨?_, ?_, ?_⟩
        · rw [show (some x).or _ = some x from rfl]
          simpa [hx] using ht.1
        · intro hc
          cases hc
        · intro e2 he2
          have : x = e2 := by
            have := he2
            rw [show (some x).or _ = some x from rfl] at this
            exact (Option.some.injEq x e2).mp this
          exact ht.2.2 e2 (this ▸ hx)
      · rw [show (if occQA e && e.box.trackId == t then some e else none) = none
            from by simp [hte], Option.or_none]
        exact ht
    · by_cases hsm : smallCrop e.frame e.box = true
      · rw [show stepOcc name s e = _ from
          processBox_reject name e.frame e.frameNumber s e.box hq hmem hsm]
        have hocc : occQA e = false := by simp [occQA, hsm]
        rw [firstQA_append_single,
            show (if occQA e && e.box.trackId == t then some e else none) = none
              from by simp [hocc], Option.or_none]
        exact ht
      · have hsm' : smallCrop e.frame e.box = false := by simpa using hsm
        have hacc := processBox_accept name e.frame e.frameNumber s e.box hq hmem hsm'
        have hsrec : (stepOcc name s e).detectionResults
            = s.detectionResults ++ [mkRecord name e.frameNumber s e.box] := by
          rw [stepOcc_eq, hacc]
        have hskeys : keys (stepOcc name s e) = keys s ++ [e.box.trackId] := by
          rw [stepOcc_eq, hacc]
          simp [keys]
        have hocc : occQA e = true := by simp [occQA, hq, hsm']
        rw [firstQA_append_single]
        by_cases hte : e.box.trackId = t
        · have hnone : firstQA done t = none := by
            cases hfq : firstQA done t with
            | none => rfl
            | some x =>
              exfalso
              exact hmem (hte ▸ ((h t).1.mpr (by simp [hfq])))
          rw [hnone, Option.none_or,
              show (if occQA e && e.box.trackId == t then some e else none) = some e
                from by simp [hocc, hte]]
          have hR : s.detectionResults.filter (fun d => decide (d.trackId = t)) = [] :=
            ht.2.1 hnone
          refine ⟨?_, ?_, ?_⟩
          · rw [hskeys]
            simp [hte]
          · intro hc
            cases hc
          · intro e2 he2
            have he2' : e = e2 := (Option.some.injEq e e2).mp he2
            subst he2'
            refine ⟨mkRecord name e.frameNumber s e.box, ?_, ?_⟩
            · rw [hsrec, List.filter_append, hR]
              simp [mkRecord, hte]
            · simp [sourcedFrom, mkRecord, hte]
        · rw [show (if occQA e && e.box.trackId == t then some e else none) = none
              from by simp [hte], Option.or_none]
          refine ⟨?_, ?_, ?_⟩
          · rw [hskeys, List.mem_append]
            constructor
            · intro hor
              rcases hor with h1 | h1
              · exact ht.1.mp h1
              · exact absurd (List.mem_singleton.mp h1).symm hte
            · intro hx
              exact Or.inl (ht.1.mpr hx)
          · intro hc
            have hR := ht.2.1 hc
            rw [hsrec, List.filter_append, hR]
            simp [mkRecord, hte]
          · intro e2 he2
            obtain ⟨d, hd, hsf⟩ := ht.2.2 e2 he2
            refine ⟨d, ?_, hsf⟩
            rw [hsrec, List.filter_append, hd]
            simp [mkRecord, hte]
  · have hq' : qualifies e.box = false := by simpa using hq
    rw [show stepOcc name s e = s from
      processBox_of_not_qualifies name e.frame e.frameNumber s e.box hq']
    have hocc : occQA e = false := by simp [occQA, hq']
    rw [firstQA_append_single,
        show (if occQA e && e.box.trackId == t then some e else none) = none
          from by simp [hocc], Option.or_none]
    exact ht

lemma dedupInv_run (name : String) : ∀ (E done : List Occ) (s : WorkerState),
    DedupInv done s → DedupInv (done ++ E) (E.foldl (stepOcc name) s)
  | [], done, s, h => by simpa using h
  | e :: E, done, s, h => by
    have h1 := dedupInv_step name done s e h
    have h2 := dedupInv_run name E (done ++ [e]) (stepOcc name s e) h1
    simpa [List.append_assoc] using h2

lemma dedupInv_init (c : Nat) : DedupInv [] (initState c) := by
  intro t
  refine ⟨?_, ?_, ?_⟩
  · simp [keys, initState, firstQA, List.find?]
  · intro _
    rfl
  · intro e he
    cases he

lemma dedupInv_final (name : String) (c : Nat) (fs : List Frame) :
    DedupInv (sampledBoxes 0 fs) (finalState name c fs) := by
  have h := dedupInv_run name (sampledBoxes 0 fs) [] (initState c) (dedupInv_init c)
  simpa [finalState] using h

/-- C2 counterexample: in `vidSmallTwice`, track id 5 appears as a
qualifying detection (person class, confidence above 0.4) on two sampled
frames, yet no DetectionRecord at all is produced for it, because both
occurrences are crop-rejected and a rejected attempt does not enter the
dedup table. -/
theorem C2_counterexample :
    qualOccCount vidSmallTwice 5 = 2 ∧
    (workerResult 0 vidSmallTwice).map
        (fun r => (r.detectionResults.filter (fun d => decide (d.trackId = 5))).length)
      = some 0 := by
  decide

/-- C2 (amended): within one video, at most one DetectionRecord exists per
track id: none when no qualifying occurrence of it survives the crop-size
test, and exactly one — sourced from the first qualifying occurrence with an
adequate crop — otherwise; a track id already in the dedup table makes the
inner loop skip the occurrence with no state change at all. -/
theorem C2_dedup_first_adequate (c : Nat) (v : Video) (hopen : v.canOpen = true)
    (hnf : hasTrackFault 0 v.frames = false) (t : Nat) :
    ((workerResult c v).map (fun r => r.detectionResults)
        = some (finalState v.name c v.frames).detectionResults) ∧
    (firstQA (sampledBoxes 0 v.frames) t = none →
      (finalState v.name c v.frames).detectionResults.filter
          (fun d => decide (d.trackId = t)) = []) ∧
    (∀ e, firstQA (sampledBoxes 0 v.frames) t = some e →
      ∃ d, (finalState v.name c v.frames).detectionResults.filter
          (fun d => decide (d.trackId = t)) = [d] ∧ sourcedFrom d e) ∧
    (∀ (s : WorkerState) (e : Occ), e.box.trackId ∈ keys s →
      stepOcc v.name s e = s) := by
  have hinv := dedupInv_final v.name c v.frames t
  refine ⟨?_, hinv.2.1, hinv.2.2, ?_⟩
  · rw [workerResult, process_single_video_ok c v hopen hnf]
    rfl
  · intro s e hmem
    exact processBox_of_mem v.name e.frame e.frameNumber s e.box hmem

/-- C2 witness: track id 7 qualifies with adequate crops on sampled frames
10 and 20 of `vidTrackTwice`; exactly one record exists and it is sourced
from the frame-10 occurrence. -/
theorem C2_dedup_first_adequate_witness :
    ∃ d, (finalState vidTrackTwice.name 0 vidTrackTwice.frames).detectionResults.filter
        (fun x => decide (x.trackId = 7)) = [d]
      ∧ sourcedFrom d ⟨10, okFrame [personBox 7 100], personBox 7 100⟩ :=
  (C2_dedup_first_adequate 0 vidTrackTwice rfl (by decide) 7).2.2.1
    ⟨10, okFrame [personBox 7 100], personBox 7 100⟩ (by decide)

lemma foldl_pairwise (name : String) : ∀ (E : List Occ) (s : WorkerState),
    List.Pairwise (fun a b => a < b)
      (s.detectionResults.map (fun d => d.localPersonNumber)) →
    (∀ d ∈ s.detectionResults, d.localPersonNumber ≤ s.localPersonCount) →
    List.Pairwise (fun a b => a < b)
      ((E.foldl (stepOcc name) s).detectionResults.map (fun d => d.localPersonNumber)) ∧
    (∀ d ∈ (E.foldl (stepOcc name) s).detectionResults,
      d.localPersonNumber ≤ (E.foldl (stepOcc name) s).localPersonCount)
  | [], _ => fun hp hb => ⟨hp, hb⟩
  | e :: E, s => fun hp hb => by
    rw [List.foldl_cons]
    by_cases hq : qualifies e.box = true
    · by_cases hmem : e.box.trackId ∈ keys s
      · rw [show stepOcc name s e = s from
          processBox_of_mem name e.frame e.frameNumber s e.box hmem]
        exact foldl_pairwise name E s hp hb
      · by_cases hsm : smallCrop e.frame e.box = true
        · have hrej := processBox_reject name e.frame e.frameNumber s e.box hq hmem hsm
          have hrec : (stepOcc name s e).detectionResults = s.detectionResults := by
            rw [stepOcc_eq, hrej]
          have hcnt : (stepOcc name s e).localPersonCount = s.localPersonCount + 1 := by
            rw [stepOcc_eq, hrej]
          refine foldl_pairwise name E (stepOcc name s e) ?_ ?_
          · rw [hrec]
            exact hp
          · intro d hd
            rw [hrec] at hd
            rw [hcnt]
            exact Nat.le_succ_of_le (hb d hd)
        · have hsm' : smallCrop e.frame e.box = false := by simpa using hsm
          have hacc := processBox_accept name e.frame e.frameNumber s e.box hq hmem hsm'
          have hrec : (stepOcc name s e).detectionResults
              = s.detectionResults ++ [mkRecord name e.frameNumber s e.box] := by
            rw [stepOcc_eq, hacc]
          have hcnt : (stepOcc name s e).localPersonCount = s.localPersonCount + 1 := by
            rw [stepOcc_eq, hacc]
          refine foldl_pairwise name E (stepOcc name s e) ?_ ?_
          · rw [hrec, List.map_append, List.pairwise_append]
            refine ⟨hp, by simp [mkRecord], ?_⟩
            intro a ha b hbm
            rw [List.mem_map] at ha
            obtain ⟨d, hd, hda⟩ := ha
            rw [show b = s.localPersonCount + 1 from by
              simpa [mkRecord] using hbm]
            rw [← hda]
            exact Nat.lt_succ_of_le (hb d hd)
          · intro d hd
            rw [hrec] at hd
            rw [hcnt]
            rcases List.mem_append.1 hd with h1 | h1
            · exact Nat.le_succ_of_le (hb d h1)
            · rw [show d = mkRecord name e.frameNumber s e.box from by simpa using h1]
              simp [mkRecord]
    · have hq' : qualifies e.box = false := by simpa using hq
      rw [show stepOcc name s e = s from
        processBox_of_not_qualifies name e.frame e.frameNumber s e.box hq']
      exact foldl_pairwise name E s hp hb

lemma foldl_dense (name : String) : ∀ (E : List Occ) (s : WorkerState),
    (∀ e ∈ E, qualifies e.box = true → smallCrop e.frame e.box = false) →
    s.localPersonCount = s.detectionResults.length →
    s.detectionResults.map (fun d => d.localPersonNumber)
        = List.range' 1 s.detectionResults.length →
    (E.foldl (stepOcc name) s).detectionResults.map (fun d => d.localPersonNumber)
        = List.range' 1 (E.foldl (stepOcc name) s).detectionResults.length
  | [], _ => fun _ _ hr => hr
  | e :: E, s => fun hadq hc hr => by
    rw [List.foldl_cons]
    have hadq' : ∀ e2 ∈ E, qualifies e2.box = true → smallCrop e2.frame e2.box = false :=
      fun e2 he2 => hadq e2 (List.mem_cons_of_mem e he2)
    by_cases hq : qualifies e.box = true
    · by_cases hmem : e.box.trackId ∈ keys s
      · rw [show stepOcc name s e = s from
          processBox_of_mem name e.frame e.frameNumber s e.box hmem]
        exact foldl_dense name E s hadq' hc hr
      · have hsm' : smallCrop e.frame e.box = false :=
          hadq e (List.mem_cons_self e E) hq
        have hacc := processBox_accept name e.frame e.frameNumber s e.box hq hmem hsm'
        have hrec : (stepOcc name s e).detectionResults
            = s.detectionResults ++ [mkRecord name e.frameNumber s e.box] := by
          rw [stepOcc_eq, hacc]
        have hcnt : (stepOcc name s e).localPersonCount = s.localPersonCount + 1 := by
          rw [stepOcc_eq, hacc]
        refine foldl_dense name E (stepOcc name s e) hadq' ?_ ?_
        · rw [hcnt, hrec]
          simp [hc]
        · rw [hrec, List.map_append, List.length_append]
          rw [show ([mkRecord name e.frameNumber s e.box]).map (fun d => d.localPersonNumber)
              = [s.localPersonCount + 1] from by simp [mkRecord]]
          rw [hr, hc]
          rw [show s.detectionResults.length + [mkRecord name e.frameNumber s e.box].length
              = s.detectionResults.length + 1 from by simp]
          rw [List.range'_1_concat]
          rw [Nat.add_comm 1 s.detectionResults.length]
    · have hq' : qualifies e.box = false := by simpa using hq
      rw [show stepOcc name s e = s from
        processBox_of_not_qualifies name e.frame e.frameNumber s e.box hq']
      exact foldl_dense name E s hadq' hc hr

/-- C4 counterexample: in `vidRejectThenAccept` the first (and only)
DetectionRecord carries local person number 2, not 1, because the earlier
crop-rejected attempt already consumed local number 1. -/
theorem C4_counterexample :
    (workerResult 0 vidRejectThenAccept).map
        (fun r => r.detectionResults.map (fun d => d.localPersonNumber))
      = some [2] := by
  decide

/-- C4 (amended): within one video the local person numbers of the
DetectionRecords are strictly increasing in frame-encounter order; they form
the dense sequence 1, 2, ... (in particular the first record carries local
number 1) provided every qualifying occurrence in the video has an adequate
crop — a crop-rejected attempt consumes a local number without producing a
record, shifting later records' numbers up. -/
theorem C4_local_numbers (c : Nat) (v : Video) (hopen : v.canOpen = true)
    (hnf : hasTrackFault 0 v.frames = false) :
    ((workerResult c v).map (fun r => r.detectionResults)
        = some (finalState v.name c v.frames).detectionResults) ∧
    List.Pairwise (fun a b => a < b)
      ((finalState v.name c v.frames).detectionResults.map
        (fun d => d.localPersonNumber)) ∧
    ((∀ e ∈ sampledBoxes 0 v.frames,
        qualifies e.box = true → smallCrop e.frame e.box = false) →
      (finalState v.name c v.frames).detectionResults.map
          (fun d => d.localPersonNumber)
        = List.range' 1 (finalState v.name c v.frames).detectionResults.length) := by
  refine ⟨?_, ?_, ?_⟩
  · rw [workerResult, process_single_video_ok c v hopen hnf]
    rfl
  · exact (foldl_pairwise v.name (sampledBoxes 0 v.frames) (initState c)
      (by simp [initState]) (by simp [initState])).1
  · intro hadq
    exact foldl_dense v.name (sampledBoxes 0 v.frames) (initState c) hadq
      (by simp [initState]) (by simp [initState])

/-- C4 witness: two adequate people on sampled frame 10 receive local
numbers `[1, 2]`, strictly increasing from 1. -/
theorem C4_local_numbers_witness :
    List.Pairwise (fun a b => a < b)
      ((finalState vidTwoPeople.name 0 vidTwoPeople.frames).detectionResults.map
        (fun d => d.localPersonNumber)) ∧
    (finalState vidTwoPeople.name 0 vidTwoPeople.frames).detectionResults.map
        (fun d => d.localPersonNumber)
      = List.range' 1 (finalState vidTwoPeople.name 0 vidTwoPeople.frames).detectionResults.length :=
  ⟨(C4_local_numbers 0 vidTwoPeople rfl (by decide)).2.1,
   (C4_local_numbers 0 vidTwoPeople rfl (by decide)).2.2 (by decide)⟩

end Tracking
